import Mathlib

/-! Chat widget (`static/js/app.js`).

A shallow embedding of the browser-side chat script: the text rendering done by
`appendMessage`, the three DOM helpers, and the `submit` handler of the chat form
with its suspension points (`await fetch`, `await res.json()`).

Modelling conventions.

* A JavaScript string is a Lean `String`; text functions work on its list of
  characters.  The regular expressions of the script carry no `u` flag and inspect
  only `\n`, `*` and the line terminators, none of which is part of a surrogate pair,
  so working on code points instead of UTF-16 code units changes nothing.
* The page is the record `Widget`: the children of `#chat-window` as DOM trees
  (`Node`), the value and focus of `#chat-text`, the `disabled` flag of `#send-btn`,
  and the `hidden` flag and text of `#error`.  `chatWindow.scrollTop =
  chatWindow.scrollHeight` depends on layout only and is left out.
* An assignment to `innerHTML` runs the browser's HTML fragment parser.  The parser is
  not part of the script: every function that renders a message takes it as the
  argument `parse`, and the theorems hold for every parser.
* The lookup `document.getElementById('typing')` is the first element with that id in
  document order.  The static page is not part of the script; outside `#chat-window`
  it is taken to hold no element with id `typing`, so the lookup walks the trees of
  `#chat-window`, bubbles included.
* Nodes are inert: a node carries its tag, id, class and children.  Markup that makes
  the browser run code of its own (event-handler attributes) is outside the model.
* The handler is a straight-line list of commands (`Cmd`), one per statement, run by
  `exec`; an `await` ends a list and leaves an `Activation` in `Sys.pending`.
* The body of a response is consumed as the shape `reply?: string, error?: string`.
-/

namespace ChatWidget

/-! ## Text rendering -/

/-- The characters the pattern `.` refuses: ECMAScript line terminators. -/
def isLineTerminator (c : Char) : Bool :=
  c = '\n' || c = '\r' || c = Char.ofNat 0x2028 || c = Char.ofNat 0x2029

/-- ECMAScript `WhiteSpace` and `LineTerminator` code points, the set removed by
`String.prototype.trim`. -/
def isJsWhiteSpace (c : Char) : Bool :=
  c.toNat = 0x9 || c.toNat = 0xA || c.toNat = 0xB || c.toNat = 0xC || c.toNat = 0xD
    || c.toNat = 0x20 || c.toNat = 0xA0 || c.toNat = 0x1680
    || (0x2000 ≤ c.toNat && c.toNat ≤ 0x200A)
    || c.toNat = 0x2028 || c.toNat = 0x2029 || c.toNat = 0x202F || c.toNat = 0x205F
    || c.toNat = 0x3000 || c.toNat = 0xFEFF

/-- Drop trailing white space of a character list. -/
def trimEndChars (cs : List Char) : List Char :=
  (cs.reverse.dropWhile isJsWhiteSpace).reverse

/-- Character-level `trim`: white space dropped at both ends. -/
def trimChars (cs : List Char) : List Char :=
  trimEndChars (cs.dropWhile isJsWhiteSpace)

/-- The method `String.prototype.trim`. -/
def jsTrim (s : String) : String := ⟨trimChars s.data⟩

/-- The call `.replace(/\n/g, '<br>')` on characters. -/
def replaceNewlines : List Char → List Char
  | [] => []
  | c :: cs =>
    if c = '\n' then '<' :: 'b' :: 'r' :: '>' :: replaceNewlines cs
    else c :: replaceNewlines cs

/-- Match the two-character literal `\*\*` at the head of the input and return what
follows it. -/
def dropStars : List Char → Option (List Char)
  | a :: b :: rest => if a = '*' ∧ b = '*' then some rest else none
  | _ => none

/-- The tail `(.*?)\*\*` of the bold pattern, run right after an opening `**`: the
shortest run of non-terminator characters followed by `**`.  Returns the captured
run and the input after the closing `**`, or `none` when the pattern fails here. -/
def lazySpan : List Char → Option (List Char × List Char)
  | [] => none
  | c :: cs =>
    match dropStars (c :: cs) with
    | some rest => some ([], rest)
    | none =>
      if isLineTerminator c then none
      else
        match lazySpan cs with
        | some (cap, rest) => some (c :: cap, rest)
        | none => none

/-- One attempt of `/\*\*(.*?)\*\*/` anchored at the head of the input. -/
def matchBold (cs : List Char) : Option (List Char × List Char) :=
  match dropStars cs with
  | some rest => lazySpan rest
  | none => none

/-- The scan of `.replace(/\*\*(.*?)\*\*/g, '<strong>$1</strong>')`.  The first argument
counts the characters still covered by the match just replaced (they are consumed
without being copied); at `0` the pattern is tried at the current position, and a
failed attempt copies one character and moves on. -/
def boldScan : Nat → List Char → List Char
  | _, [] => []
  | k + 1, _ :: cs => boldScan k cs
  | 0, c :: cs =>
    match matchBold (c :: cs) with
    | some (cap, _) =>
      "<strong>".data ++ cap ++ "</strong>".data ++ boldScan (cap.length + 3) cs
    | none => c :: boldScan 0 cs

/-- The call `.replace(/\*\*(.*?)\*\*/g, '<strong>$1</strong>')` on characters. -/
def replaceBold (cs : List Char) : List Char := boldScan 0 cs

/-- The value assigned to `bubble.innerHTML` in `appendMessage`. -/
def markup (text : String) : String := ⟨replaceBold (replaceNewlines text.data)⟩

/-! ## The DOM -/

/-- The `role` argument of `appendMessage`; the script passes `'user'` or
`'assistant'`. -/
inductive Role
  | user
  | assistant
  deriving DecidableEq, Repr

/-- The string spliced into the class name `message ${role}`. -/
def Role.name : Role → String
  | .user => "user"
  | .assistant => "assistant"

/-- What `appendMessage` sets on the wrapper it builds: the class of the wrapper, its
`id` (empty when none is set), the text of the avatar child and the string assigned to
the `innerHTML` of the bubble child. -/
structure Element where
  className : String
  id : String
  avatar : String
  bubble : String
  deriving DecidableEq, Repr

/-- The wrapper built by `appendMessage(role, text)`. -/
def messageElement (role : Role) (text : String) : Element :=
  { className := "message " ++ role.name
    id := ""
    avatar := if role = Role.user then "🧍‍♂️" else "🕊️"
    bubble := markup text }

/-- A node of the document tree: a text node, or an element with its tag, its `id`
(empty when it has none), its class and its children in document order. -/
inductive Node
  | text (data : String)
  | element (tag : String) (id : String) (className : String) (children : List Node)
  deriving Repr

/-- The `id` of a node (empty for a text node). -/
def Node.id : Node → String
  | .text _ => ""
  | .element _ i _ _ => i

/-- The class of a node (empty for a text node). -/
def Node.className : Node → String
  | .text _ => ""
  | .element _ _ c _ => c

/-- Whether the node is an element whose id is `i`. -/
def Node.isId (i : String) : Node → Bool
  | .text _ => false
  | .element _ j _ _ => j = i

mutual
/-- The property `textContent` of a node. -/
def Node.textContent : Node → String
  | .text d => d
  | .element _ _ _ cs => textContentOf cs
/-- The concatenated `textContent` of a list of nodes. -/
def textContentOf : List Node → String
  | [] => ""
  | n :: ns => n.textContent ++ textContentOf ns
end

mutual
/-- Whether the node or one of its descendants is an element with id `i`. -/
def Node.hasId (i : String) : Node → Bool
  | .text _ => false
  | .element _ j _ cs => j = i || hasIdIn i cs
/-- Whether `document.getElementById(i)` finds an element in these trees. -/
def hasIdIn (i : String) : List Node → Bool
  | [] => false
  | n :: ns => n.hasId i || hasIdIn i ns
end

mutual
/-- Remove the first descendant of the node, in document order, that has id `i`;
`none` when no descendant has it. -/
def Node.eraseInside (i : String) : Node → Option Node
  | .text _ => none
  | .element t j c cs =>
    match eraseFirstId i cs with
    | some cs1 => some (.element t j c cs1)
    | none => none
/-- The call `document.getElementById(i).remove()` on these trees: the first element
with id `i` in document order is removed with its subtree; `none` when the lookup
finds no element. -/
def eraseFirstId (i : String) : List Node → Option (List Node)
  | [] => none
  | n :: ns =>
    if n.isId i then some ns
    else
      match n.eraseInside i with
      | some n1 => some (n1 :: ns)
      | none =>
        match eraseFirstId i ns with
        | some r => some (n :: r)
        | none => none
end

/-- The subtree a wrapper built by `appendMessage` becomes: a `div` holding the avatar
`div` with its text and the bubble `div`, whose children are what the fragment
parser `parse` makes of the string assigned to `innerHTML`. -/
def Element.toNode (parse : String → List Node) (e : Element) : Node :=
  Node.element "div" e.id e.className
    [ Node.element "div" "" "avatar" [Node.text e.avatar],
      Node.element "div" "" "bubble" (parse e.bubble) ]

/-- The element built by `appendTyping()`: a `div` with class `message assistant` and
id `typing`; its `innerHTML` is the literal
`<div class="avatar">🕊️</div><div class="bubble"><span class="typing"><span></span><span></span><span></span></span></div>`,
written here as the tree that literal denotes. -/
def typingNode : Node :=
  Node.element "div" "typing" "message assistant"
    [ Node.element "div" "" "avatar" [Node.text "🕊️"],
      Node.element "div" "" "bubble"
        [ Node.element "span" "" "typing"
            [ Node.element "span" "" "" [],
              Node.element "span" "" "" [],
              Node.element "span" "" "" [] ] ] ]

/-- A child of `#chat-window` with id `typing`: the composing placeholder. -/
def isTyping (n : Node) : Bool := n.isId "typing"

/-- The part of the page the script reads and writes. -/
structure Widget where
  chatWindow : List Node
  chatText : String
  chatTextFocused : Bool
  sendBtnDisabled : Bool
  errorHidden : Bool
  errorText : String
  deriving Repr

/-- Function `appendMessage(role, text)`. -/
def appendMessage (parse : String → List Node) (role : Role) (text : String)
    (w : Widget) : Widget :=
  { w with chatWindow := w.chatWindow ++ [(messageElement role text).toNode parse] }

/-- Function `appendTyping()`. -/
def appendTyping (w : Widget) : Widget :=
  { w with chatWindow := w.chatWindow ++ [typingNode] }

/-- Function `removeTyping()`: the first element with id `typing` in document order,
if there is one, is removed. -/
def removeTyping (w : Widget) : Widget :=
  { w with
    chatWindow :=
      match eraseFirstId "typing" w.chatWindow with
      | some l => l
      | none => w.chatWindow }

/-- The composing placeholder is in the transcript. -/
def placeholderPresent (w : Widget) : Bool := w.chatWindow.any isTyping

/-- Number of placeholder elements in the transcript. -/
def typingCount (w : Widget) : Nat := w.chatWindow.countP isTyping

/-- The classes of the transcript entries other than the placeholder, in order:
`message user` for a user entry, `message assistant` for an assistant entry. -/
def entryClasses (l : List Node) : List String :=
  (l.filter (fun n => !isTyping n)).map Node.className

/-- What the transcript shows: for each child of `#chat-window` its id, its class and
its text content. -/
def shown (l : List Node) : List (String × String × String) :=
  l.map (fun n => (n.id, n.className, n.textContent))

/-! ## The submit handler -/

/-- The consumed shape of a parsed response body. -/
structure Payload where
  reply : Option String
  error : Option String
  deriving DecidableEq, Repr

/-- JavaScript `x || d` for an optional string `x`: `d` when `x` is undefined or
the empty string. -/
def orDefault (x : Option String) (d : String) : String :=
  match x with
  | some v => if v = "" then d else v
  | none => d

/-- One statement of the handler. -/
inductive Cmd
  | preventDefault
  | setErrorHidden (b : Bool)
  | setErrorText (s : String)
  | appendMessage (role : Role) (text : String)
  | setChatText (s : String)
  | focusChatText
  | setSendDisabled (b : Bool)
  | appendTyping
  | removeTyping
  | fetch (message : String)
  | readBody
  deriving DecidableEq, Repr

/-- Effect of one statement on the page. -/
def execCmd (parse : String → List Node) (c : Cmd) (w : Widget) : Widget :=
  match c with
  | .preventDefault => w
  | .setErrorHidden b => { w with errorHidden := b }
  | .setErrorText s => { w with errorText := s }
  | .appendMessage role text => appendMessage parse role text w
  | .setChatText s => { w with chatText := s }
  | .focusChatText => { w with chatTextFocused := true }
  | .setSendDisabled b => { w with sendBtnDisabled := b }
  | .appendTyping => appendTyping w
  | .removeTyping => removeTyping w
  | .fetch _ => w
  | .readBody => w

/-- Run statements in order. -/
def exec (parse : String → List Node) : List Cmd → Widget → Widget
  | [], w => w
  | c :: cs, w => exec parse cs (execCmd parse c w)

/-- Lines 39-55: the handler from the `submit` event up to `await fetch(...)`. -/
def submitCmds (w : Widget) : List Cmd :=
  Cmd.preventDefault ::
    (if jsTrim w.chatText = "" then []
     else
      [ Cmd.setErrorHidden true, Cmd.setErrorText "",
        Cmd.appendMessage Role.user (jsTrim w.chatText),
        Cmd.setChatText "",
        Cmd.focusChatText,
        Cmd.setSendDisabled true,
        Cmd.appendTyping,
        Cmd.fetch (jsTrim w.chatText) ])

/-- Lines 60-63: the `catch` block, entered with `err.message`. -/
def catchCmds (message : String) : List Cmd :=
  [Cmd.removeTyping, Cmd.setErrorHidden false, Cmd.setErrorText message]

/-- Lines 64-66: the `finally` block. -/
def finallyCmds : List Cmd := [Cmd.setSendDisabled false]

/-- Line 56: `fetch` resolved; the handler goes on to `await res.json()`. -/
def fetchResolvedCmds : List Cmd := [Cmd.readBody]

/-- The handler resumed by a rejected `fetch`. -/
def fetchRejectedCmds (message : String) : List Cmd :=
  catchCmds message ++ finallyCmds

/-- The handler resumed by a rejected `res.json()`. -/
def bodyRejectedCmds (message : String) : List Cmd :=
  catchCmds message ++ finallyCmds

/-- Lines 57-59 and what follows: the handler resumed with the parsed body `data` of
a response whose `ok` flag is `ok`. -/
def bodyParsedCmds (ok : Bool) (data : Payload) : List Cmd :=
  Cmd.removeTyping ::
    (if !ok then catchCmds (orDefault data.error "Something went wrong") ++ finallyCmds
     else Cmd.appendMessage Role.assistant (orDefault data.reply "") :: finallyCmds)

/-- Messages of the endpoint calls started by a command list. -/
def calls : List Cmd → List String
  | [] => []
  | Cmd.fetch m :: cs => m :: calls cs
  | _ :: cs => calls cs

/-- Whether a statement is a call of `appendMessage`. -/
def isAppend : Cmd → Bool
  | Cmd.appendMessage _ _ => true
  | _ => false

/-- Number of `el.remove()` actually executed when the commands run from `w`: a
`removeTyping()` whose lookup finds no element removes nothing. -/
def removals (parse : String → List Node) : List Cmd → Widget → Nat
  | [], _ => 0
  | c :: cs, w =>
    (if c = Cmd.removeTyping ∧ hasIdIn "typing" w.chatWindow = true then 1 else 0)
      + removals parse cs (execCmd parse c w)

/-! ## Suspended handlers and events -/

/-- A handler activation suspended at an `await`. -/
inductive Activation
  | awaitingFetch (message : String)
  | awaitingBody (ok : Bool)
  deriving DecidableEq, Repr

/-- The page together with the suspended activations, oldest first.  Each one is an
endpoint call whose cycle is not complete. -/
structure Sys where
  ui : Widget
  pending : List Activation
  deriving Repr

/-- What can happen to the widget: the user edits the text field, a `submit` event is
dispatched to the form, or the promise awaited by activation `i` settles. -/
inductive Event
  | input (value : String)
  | submit
  | fetchResolved (i : Nat) (ok : Bool)
  | fetchRejected (i : Nat) (message : String)
  | bodyParsed (i : Nat) (data : Payload)
  | bodyRejected (i : Nat) (message : String)
  deriving DecidableEq, Repr

/-- One event.  `none` when the event cannot happen (no such suspended activation). -/
def step (parse : String → List Node) (s : Sys) : Event → Option Sys
  | .input v => some { s with ui := { s.ui with chatText := v } }
  | .submit =>
    some { ui := exec parse (submitCmds s.ui) s.ui
           pending := s.pending ++ (calls (submitCmds s.ui)).map Activation.awaitingFetch }
  | .fetchResolved i ok =>
    match s.pending[i]? with
    | some (.awaitingFetch _) =>
      some { ui := exec parse fetchResolvedCmds s.ui
             pending := s.pending.set i (Activation.awaitingBody ok) }
    | _ => none
  | .fetchRejected i message =>
    match s.pending[i]? with
    | some (.awaitingFetch _) =>
      some { ui := exec parse (fetchRejectedCmds message) s.ui
             pending := s.pending.eraseIdx i }
    | _ => none
  | .bodyParsed i data =>
    match s.pending[i]? with
    | some (.awaitingBody ok) =>
      some { ui := exec parse (bodyParsedCmds ok data) s.ui
             pending := s.pending.eraseIdx i }
    | _ => none
  | .bodyRejected i message =>
    match s.pending[i]? with
    | some (.awaitingBody _) =>
      some { ui := exec parse (bodyRejectedCmds message) s.ui
             pending := s.pending.eraseIdx i }
    | _ => none

/-- A sequence of events, every one dispatched to the script. -/
def run (parse : String → List Node) (s : Sys) : List Event → Option Sys
  | [] => some s
  | e :: es =>
    match step parse s e with
    | some s1 => run parse s1 es
    | none => none

/-- The browser side of the submit button: a form whose submit button is disabled
dispatches no `submit` event.  The script itself has no such test. -/
def deliverable (s : Sys) : Event → Bool
  | .submit => !s.ui.sendBtnDisabled
  | _ => true

/-- A sequence of events in which `submit` is dispatched only while the button is
enabled. -/
def runGated (parse : String → List Node) (s : Sys) : List Event → Option Sys
  | [] => some s
  | e :: es =>
    if deliverable s e then
      match step parse s e with
      | some s1 => runGated parse s1 es
      | none => none
    else none

/-- The idle widget: button enabled, no placeholder, no suspended activation. -/
def Idle (s : Sys) : Prop :=
  s.ui.sendBtnDisabled = false ∧ typingCount s.ui = 0 ∧ s.pending = []

instance (s : Sys) : Decidable (Idle s) :=
  inferInstanceAs (Decidable (_ ∧ _ ∧ _))

/-- No call is pending: button enabled, no suspended activation. -/
def Free (s : Sys) : Prop :=
  s.ui.sendBtnDisabled = false ∧ s.pending = []

/-- A call is pending: button disabled, one suspended activation. -/
def Busy (s : Sys) : Prop :=
  s.ui.sendBtnDisabled = true ∧ s.pending.length = 1

/-- The transcript of a pending call started on a page free of the id `typing`: the
placeholder is the last child and the only element with that id. -/
def Placed (w : Widget) : Prop :=
  ∃ t : List Node, w.chatWindow = t ++ [typingNode] ∧ hasIdIn "typing" t = false

/-- How an endpoint call ends. -/
inductive Outcome
  | response (ok : Bool) (data : Payload)
  | transportFailure (message : String)
  | unparsableBody (ok : Bool) (message : String)
  deriving DecidableEq, Repr

/-- The events by which activation `i` lives through an outcome. -/
def Outcome.events (i : Nat) : Outcome → List Event
  | .response ok data => [Event.fetchResolved i ok, Event.bodyParsed i data]
  | .transportFailure message => [Event.fetchRejected i message]
  | .unparsableBody ok message => [Event.fetchResolved i ok, Event.bodyRejected i message]

/-- The statements the handler runs after its call ends with the given outcome. -/
def Outcome.cmds : Outcome → List Cmd
  | .response ok data => fetchResolvedCmds ++ bodyParsedCmds ok data
  | .transportFailure message => fetchRejectedCmds message
  | .unparsableBody _ message => fetchResolvedCmds ++ bodyRejectedCmds message

/-- A page with an empty transcript and the given text typed in. -/
def freshWidget (value : String) : Widget :=
  { chatWindow := [], chatText := value, chatTextFocused := false,
    sendBtnDisabled := false, errorHidden := true, errorText := "" }

/-- The idle widget with the given text typed in. -/
def fresh (value : String) : Sys := { ui := freshWidget value, pending := [] }

/-- The fragment parser on the markup of the examples below, as the HTML standard
defines it there: the empty string gives no node, `<i id="typing">x</i>` gives an `i`
element with id `typing` holding the text `x`, and a string without `<` and `&` gives
one text node.  The examples use no other markup. -/
def sampleParse (html : String) : List Node :=
  if html = "" then []
  else if html = "<i id=\"typing\">x</i>" then
    [Node.element "i" "typing" "" [Node.text "x"]]
  else [Node.text html]

/-! ## Text rendering: lemmas -/

theorem replaceNewlines_append (xs ys : List Char) :
    replaceNewlines (xs ++ ys) = replaceNewlines xs ++ replaceNewlines ys := by
  induction xs with
  | nil => rfl
  | cons c cs ih =>
    by_cases h : c = '\n' <;> simp [replaceNewlines, h, ih]

theorem replaceNewlines_eq_flatMap (cs : List Char) :
    replaceNewlines cs
      = cs.flatMap (fun c => if c = '\n' then ['<', 'b', 'r', '>'] else [c]) := by
  induction cs with
  | nil => rfl
  | cons c cs ih =>
    by_cases h : c = '\n' <;> simp [replaceNewlines, h, ih]

theorem replaceNewlines_id (cs : List Char) (h : ∀ c ∈ cs, c ≠ '\n') :
    replaceNewlines cs = cs := by
  induction cs with
  | nil => rfl
  | cons c cs ih =>
    have hc : c ≠ '\n' := h c (List.mem_cons_self _ _)
    have ht : ∀ d ∈ cs, d ≠ '\n' := fun d hd => h d (List.mem_cons_of_mem _ hd)
    simp [replaceNewlines, hc, ih ht]

theorem mem_replaceNewlines (cs : List Char) (d : Char) (h : d ∈ replaceNewlines cs) :
    d ≠ '\n' ∧ (d ∈ cs ∨ d ∈ ['<', 'b', 'r', '>']) := by
  induction cs with
  | nil => simp [replaceNewlines] at h
  | cons c cs ih =>
    by_cases hc : c = '\n'
    · simp only [replaceNewlines, hc, if_true, List.mem_cons] at h
      rcases h with h | h | h | h | h
      · subst h; exact ⟨by decide, Or.inr (by simp)⟩
      · subst h; exact ⟨by decide, Or.inr (by simp)⟩
      · subst h; exact ⟨by decide, Or.inr (by simp)⟩
      · subst h; exact ⟨by decide, Or.inr (by simp)⟩
      · obtain ⟨h1, h2⟩ := ih h
        exact ⟨h1, h2.imp (List.mem_cons_of_mem _) id⟩
    · simp only [replaceNewlines, hc, if_false, List.mem_cons] at h
      rcases h with h | h
      · subst h; exact ⟨hc, Or.inl (List.mem_cons_self _ _)⟩
      · obtain ⟨h1, h2⟩ := ih h
        exact ⟨h1, h2.imp (List.mem_cons_of_mem _) id⟩

theorem dropStars_eq_some (cs rest : List Char) (h : dropStars cs = some rest) :
    cs = '*' :: '*' :: rest := by
  match cs, h with
  | a :: b :: r, h =>
    by_cases hab : a = '*' ∧ b = '*'
    · simp [dropStars, hab] at h
      obtain ⟨ha, hb⟩ := hab
      subst ha; subst hb; subst h; rfl
    · simp [dropStars, hab] at h

theorem dropStars_cons_ne (c : Char) (cs : List Char) (h : c ≠ '*') :
    dropStars (c :: cs) = none := by
  cases cs with
  | nil => rfl
  | cons b r => simp [dropStars, h]

theorem lazySpan_eq_some (cs cap rest : List Char) (h : lazySpan cs = some (cap, rest)) :
    cs = cap ++ '*' :: '*' :: rest := by
  induction cs generalizing cap with
  | nil => simp [lazySpan] at h
  | cons c cs ih =>
    unfold lazySpan at h
    cases hd : dropStars (c :: cs) with
    | some r =>
      rw [hd] at h
      simp only [Option.some.injEq, Prod.mk.injEq] at h
      obtain ⟨h1, h2⟩ := h
      subst h1; subst h2
      simpa using dropStars_eq_some _ _ hd
    | none =>
      rw [hd] at h
      by_cases hl : isLineTerminator c = true
      · simp [hl] at h
      · simp only [hl] at h
        cases hs : lazySpan cs with
        | none => rw [hs] at h; simp at h
        | some pr =>
          obtain ⟨cap1, rest1⟩ := pr
          rw [hs] at h
          simp only [Bool.false_eq_true, if_false, Option.some.injEq, Prod.mk.injEq] at h
          obtain ⟨h1, h2⟩ := h
          subst h1; subst h2
          simp [ih cap1 hs]

theorem lazySpan_plain (b rest : List Char)
    (hb : ∀ ch ∈ b, ch ≠ '*' ∧ isLineTerminator ch = false) :
    lazySpan (b ++ '*' :: '*' :: rest) = some (b, rest) := by
  induction b with
  | nil => simp [lazySpan, dropStars]
  | cons c cs ih =>
    obtain ⟨h1, h2⟩ := hb c (List.mem_cons_self _ _)
    have ht : ∀ ch ∈ cs, ch ≠ '*' ∧ isLineTerminator ch = false :=
      fun d hd => hb d (List.mem_cons_of_mem _ hd)
    have hd : dropStars (c :: (cs ++ '*' :: '*' :: rest)) = none := dropStars_cons_ne _ _ h1
    rw [List.cons_append, lazySpan, hd]
    simp [h2, ih ht]

theorem boldScan_skip (xs ys : List Char) :
    boldScan xs.length (xs ++ ys) = boldScan 0 ys := by
  induction xs with
  | nil => rfl
  | cons c cs ih => simpa [boldScan] using ih

theorem boldScan_plain (xs ys : List Char) (h : ∀ ch ∈ xs, ch ≠ '*') :
    boldScan 0 (xs ++ ys) = xs ++ boldScan 0 ys := by
  induction xs with
  | nil => rfl
  | cons c cs ih =>
    have hc : c ≠ '*' := h c (List.mem_cons_self _ _)
    have ht : ∀ ch ∈ cs, ch ≠ '*' := fun d hd => h d (List.mem_cons_of_mem _ hd)
    have hm : matchBold (c :: (cs ++ ys)) = none := by
      simp [matchBold, dropStars_cons_ne _ _ hc]
    simp [boldScan, hm, ih ht]

theorem boldScan_span (b rest : List Char)
    (hb : ∀ ch ∈ b, ch ≠ '*' ∧ isLineTerminator ch = false) :
    boldScan 0 ('*' :: '*' :: (b ++ '*' :: '*' :: rest))
      = "<strong>".data ++ b ++ "</strong>".data ++ boldScan 0 rest := by
  have hm : matchBold ('*' :: '*' :: (b ++ '*' :: '*' :: rest)) = some (b, rest) := by
    simp [matchBold, dropStars, lazySpan_plain b rest hb]
  have hk : boldScan (b.length + 3) ('*' :: (b ++ '*' :: '*' :: rest)) = boldScan 0 rest := by
    have := boldScan_skip ('*' :: (b ++ ['*', '*'])) rest
    simpa using this
  rw [boldScan, hm]
  simp only [hk]

theorem mem_boldScan (k : Nat) (cs : List Char) (d : Char) (h : d ∈ boldScan k cs) :
    d ∈ cs ∨ d ∈ "<strong>".data ∨ d ∈ "</strong>".data := by
  induction cs generalizing k with
  | nil => simp [boldScan] at h
  | cons c cs ih =>
    cases k with
    | succ k =>
      simp only [boldScan] at h
      exact (ih k h).imp (List.mem_cons_of_mem _) id
    | zero =>
      unfold boldScan at h
      cases hm : matchBold (c :: cs) with
      | none =>
        rw [hm] at h
        simp only [List.mem_cons] at h
        rcases h with h | h
        · subst h; exact Or.inl (List.mem_cons_self _ _)
        · exact (ih 0 h).imp (List.mem_cons_of_mem _) id
      | some pr =>
        obtain ⟨cap, rest⟩ := pr
        rw [hm] at h
        simp only [List.mem_append] at h
        have hcs : c :: cs = '*' :: '*' :: (cap ++ '*' :: '*' :: rest) := by
          unfold matchBold at hm
          cases hd : dropStars (c :: cs) with
          | none => rw [hd] at hm; simp at hm
          | some r =>
            rw [hd] at hm
            have h1 := dropStars_eq_some _ _ hd
            have h2 := lazySpan_eq_some _ _ _ hm
            rw [h1, h2]
        rcases h with ((h | h) | h) | h
        · exact Or.inr (Or.inl h)
        · left; rw [hcs]; simp [h]
        · exact Or.inr (Or.inr h)
        · exact (ih _ h).imp (List.mem_cons_of_mem _) id

theorem replaceNewlines_no_star (cs : List Char) (h : ∀ c ∈ cs, c ≠ '*') :
    ∀ c ∈ replaceNewlines cs, c ≠ '*' := by
  intro c hc
  rcases (mem_replaceNewlines cs c hc).2 with h1 | h1
  · exact h c h1
  · simp only [List.mem_cons, List.mem_singleton, List.not_mem_nil, or_false] at h1
    rcases h1 with h1 | h1 | h1 | h1 <;> subst h1 <;> decide

theorem trimChars_eq_nil_iff (cs : List Char) :
    trimChars cs = [] ↔ ∀ c ∈ cs, isJsWhiteSpace c = true := by
  have key : ∀ l : List Char, (∀ c ∈ l.dropWhile isJsWhiteSpace, isJsWhiteSpace c = true) →
      ∀ c ∈ l, isJsWhiteSpace c = true := by
    intro l
    induction l with
    | nil => intro _ c hc; simp at hc
    | cons a l ih =>
      intro h c hc
      by_cases ha : isJsWhiteSpace a = true
      · rw [List.dropWhile_cons_of_pos ha] at h
        rcases List.mem_cons.mp hc with hc | hc
        · subst hc; exact ha
        · exact ih h c hc
      · rw [List.dropWhile_cons_of_neg ha] at h
        exact h c hc
  unfold trimChars trimEndChars
  rw [List.reverse_eq_nil_iff, List.dropWhile_eq_nil_iff]
  constructor
  · intro h
    exact key cs (fun c hc => h c (List.mem_reverse.mpr hc))
  · intro h c hc
    exact h c ((List.dropWhile_sublist _).subset (List.mem_reverse.mp hc))

theorem jsTrim_eq_empty_iff (raw : String) :
    jsTrim raw = "" ↔ ∀ c ∈ raw.data, isJsWhiteSpace c = true := by
  rw [← trimChars_eq_nil_iff]
  constructor
  · intro h
    exact congrArg String.data h
  · intro h
    exact String.ext h

/-! ## Claims on text rendering -/

/-- C8. Bold markup: for strings `a`, `b`, `c` without asterisk and without line
terminator, the bubble markup `appendMessage` builds for `a ++ "**" ++ b ++ "**" ++ c`
is `a ++ "<strong>" ++ b ++ "</strong>" ++ c`; `"**bold**"` gives
`"<strong>bold</strong>"`, and `"**x** y **z**"` gives two separate emphasized
segments. -/
theorem bold_markup (role : Role) (a b c : String)
    (ha : ∀ ch ∈ a.data, ch ≠ '*' ∧ isLineTerminator ch = false)
    (hb : ∀ ch ∈ b.data, ch ≠ '*' ∧ isLineTerminator ch = false)
    (hc : ∀ ch ∈ c.data, ch ≠ '*' ∧ isLineTerminator ch = false) :
    (messageElement role (a ++ "**" ++ b ++ "**" ++ c)).bubble
        = a ++ "<strong>" ++ b ++ "</strong>" ++ c
      ∧ (messageElement role "**bold**").bubble = "<strong>bold</strong>"
      ∧ (messageElement role "**x** y **z**").bubble
        = "<strong>x</strong> y <strong>z</strong>" := by
  have k1 : markup "**bold**" = "<strong>bold</strong>" := by decide
  have k2 : markup "**x** y **z**" = "<strong>x</strong> y <strong>z</strong>" := by decide
  refine ⟨?_, k1, k2⟩
  have nl : ∀ (l : List Char), (∀ ch ∈ l, ch ≠ '*' ∧ isLineTerminator ch = false) →
      ∀ ch ∈ l, ch ≠ '\n' := by
    intro l hl ch hch hn
    have := (hl ch hch).2
    subst hn
    simp [isLineTerminator] at this
  apply String.ext
  show replaceBold (replaceNewlines (a ++ "**" ++ b ++ "**" ++ c).data) = _
  simp only [String.data_append, replaceNewlines_append,
    replaceNewlines_id _ (nl _ ha), replaceNewlines_id _ (nl _ hb),
    replaceNewlines_id _ (nl _ hc)]
  have hs : replaceNewlines "**".data = ['*', '*'] := by decide
  rw [hs]
  have e1 : a.data ++ ['*', '*'] ++ b.data ++ ['*', '*'] ++ c.data
      = a.data ++ ('*' :: '*' :: (b.data ++ '*' :: '*' :: c.data)) := by simp
  rw [e1]
  unfold replaceBold
  rw [boldScan_plain _ _ (fun ch h => (ha ch h).1), boldScan_span _ _ hb]
  have e2 := boldScan_plain c.data [] (fun ch h => (hc ch h).1)
  simp only [List.append_nil] at e2
  have e3 : boldScan 0 ([] : List Char) = [] := rfl
  rw [e2, e3]
  simp

/-- The hypotheses of C8 hold at `a = "say "`, `b = "hi"`, `c = "!"`. -/
theorem bold_markup_witness :
    (messageElement Role.assistant ("say " ++ "**" ++ "hi" ++ "**" ++ "!")).bubble
        = "say " ++ "<strong>" ++ "hi" ++ "</strong>" ++ "!" :=
  (bold_markup Role.assistant "say " "hi" "!" (by decide) (by decide) (by decide)).1

/-- C10. Line breaks: the bubble markup of every text contains no newline character;
it is the bold replacement run on the text in which every newline has become `<br>`;
for a text without asterisk it is exactly the text with every newline replaced by
`<br>`; and `"**a\nb**"` gives `"<strong>a<br>b</strong>"`. -/
theorem line_breaks (role : Role) (text : String) :
    '\n' ∉ (messageElement role text).bubble.data
      ∧ (messageElement role text).bubble
          = String.mk (replaceBold
              (text.data.flatMap (fun c => if c = '\n' then ['<', 'b', 'r', '>'] else [c])))
      ∧ ((∀ c ∈ text.data, c ≠ '*') →
          (messageElement role text).bubble
            = String.mk
                (text.data.flatMap (fun c => if c = '\n' then ['<', 'b', 'r', '>'] else [c])))
      ∧ (messageElement role "**a\nb**").bubble = "<strong>a<br>b</strong>" := by
  have k1 : markup "**a\nb**" = "<strong>a<br>b</strong>" := by decide
  refine ⟨?_, ?_, ?_, k1⟩
  · intro h
    have h1 : '\n' ∈ boldScan 0 (replaceNewlines text.data) := h
    rcases mem_boldScan _ _ _ h1 with h2 | h2 | h2
    · exact (mem_replaceNewlines _ _ h2).1 rfl
    · revert h2; decide
    · revert h2; decide
  · show String.mk (replaceBold (replaceNewlines text.data)) = _
    rw [replaceNewlines_eq_flatMap]
  · intro h
    show String.mk (replaceBold (replaceNewlines text.data)) = _
    rw [← replaceNewlines_eq_flatMap]
    have e := boldScan_plain (replaceNewlines text.data) [] (replaceNewlines_no_star _ h)
    simp only [List.append_nil] at e
    have e3 : boldScan 0 ([] : List Char) = [] := rfl
    rw [e3, List.append_nil] at e
    unfold replaceBold
    rw [e]

/-- The asterisk-free case of C10 at the text `"a\nb"`. -/
theorem line_breaks_witness :
    (messageElement Role.user "a\nb").bubble = "a<br>b" :=
  (line_breaks Role.user "a\nb").2.2.1 (by decide)

/-! ## The DOM: lemmas -/

mutual
theorem Node.eraseInside_none (i : String) :
    ∀ n : Node, n.hasId i = false → n.eraseInside i = none
  | .text _, _ => rfl
  | .element t j c cs, h => by
    have h2 : hasIdIn i cs = false := by
      simp only [Node.hasId, Bool.or_eq_false_iff] at h
      exact h.2
    simp [Node.eraseInside, eraseFirstId_none i cs h2]
theorem eraseFirstId_none (i : String) :
    ∀ l : List Node, hasIdIn i l = false → eraseFirstId i l = none
  | [], _ => rfl
  | n :: ns, h => by
    simp only [hasIdIn, Bool.or_eq_false_iff] at h
    have h1 := Node.eraseInside_none i n h.1
    have h2 := eraseFirstId_none i ns h.2
    have h3 : n.isId i = false := by
      cases n with
      | text s => rfl
      | element t j c cs =>
        have := h.1
        simp only [Node.hasId, Bool.or_eq_false_iff] at this
        simpa [Node.isId] using this.1
    simp [eraseFirstId, h1, h2, h3]
end

theorem Node.isId_of_hasId (i : String) (n : Node) (h : n.hasId i = false) :
    n.isId i = false := by
  cases n with
  | text s => rfl
  | element t j c cs =>
    simp only [Node.hasId, Bool.or_eq_false_iff] at h
    simpa [Node.isId] using h.1

theorem hasIdIn_append (i : String) (a b : List Node) :
    hasIdIn i (a ++ b) = (hasIdIn i a || hasIdIn i b) := by
  induction a with
  | nil => simp [hasIdIn]
  | cons n ns ih => simp [hasIdIn, ih, Bool.or_assoc]

theorem eraseFirstId_append_clean (i : String) (a b : List Node)
    (h : hasIdIn i a = false) :
    eraseFirstId i (a ++ b) = (eraseFirstId i b).map (fun r => a ++ r) := by
  induction a with
  | nil =>
    rw [List.nil_append]
    cases eraseFirstId i b <;> simp
  | cons n ns ih =>
    simp only [hasIdIn, Bool.or_eq_false_iff] at h
    have h1 := Node.eraseInside_none i n h.1
    have h3 := Node.isId_of_hasId i n h.1
    rw [List.cons_append, eraseFirstId, h3, h1, ih h.2]
    cases eraseFirstId i b <;> simp

theorem isTyping_typingNode : isTyping typingNode = true := by decide

theorem isTyping_toNode (parse : String → List Node) (role : Role) (text : String) :
    isTyping ((messageElement role text).toNode parse) = false := by
  simp [isTyping, Element.toNode, Node.isId, messageElement]

theorem hasId_toNode (parse : String → List Node) (role : Role) (text : String) :
    ((messageElement role text).toNode parse).hasId "typing"
      = hasIdIn "typing" (parse (markup text)) := by
  simp [Element.toNode, Node.hasId, hasIdIn, messageElement]

theorem className_toNode (parse : String → List Node) (role : Role) (text : String) :
    ((messageElement role text).toNode parse).className = "message " ++ role.name := rfl

theorem eraseFirstId_placed (t : List Node) (h : hasIdIn "typing" t = false) :
    eraseFirstId "typing" (t ++ [typingNode]) = some t := by
  rw [eraseFirstId_append_clean _ _ _ h]
  have : eraseFirstId "typing" [typingNode] = some [] := by
    simp [eraseFirstId, typingNode, Node.isId]
  rw [this]
  simp

theorem hasId_of_isTyping (n : Node) (h : isTyping n = true) : n.hasId "typing" = true := by
  cases n with
  | text s => simp [isTyping, Node.isId] at h
  | element t j c cs =>
    simp only [isTyping, Node.isId, decide_eq_true_eq] at h
    simp [Node.hasId, h]

theorem countP_isTyping_clean (t : List Node) (h : hasIdIn "typing" t = false) :
    t.countP isTyping = 0 := by
  induction t with
  | nil => rfl
  | cons n ns ih =>
    simp only [hasIdIn, Bool.or_eq_false_iff] at h
    have hn : ¬ isTyping n = true := by
      intro hn
      rw [hasId_of_isTyping n hn] at h
      exact Bool.noConfusion h.1
    rw [List.countP_cons_of_neg _ _ hn, ih h.2]

theorem any_iff_countP_pos (l : List Node) :
    l.any isTyping = true ↔ 0 < l.countP isTyping := by
  rw [List.countP_pos_iff, List.any_eq_true]

theorem Node.eraseInside_keeps (i : String) (n n1 : Node) (h : n.eraseInside i = some n1) :
    n1.className = n.className ∧ isTyping n1 = isTyping n := by
  cases n with
  | text s => simp [Node.eraseInside] at h
  | element t j c cs =>
    unfold Node.eraseInside at h
    cases hc : eraseFirstId i cs with
    | none => rw [hc] at h; cases h
    | some cs1 =>
      rw [hc] at h
      simp only [Option.some.injEq] at h
      subst h
      exact ⟨rfl, rfl⟩

theorem entryClasses_cons (n : Node) (l : List Node) :
    entryClasses (n :: l)
      = (if isTyping n = true then [] else [n.className]) ++ entryClasses l := by
  by_cases h : isTyping n = true <;> simp [entryClasses, List.filter_cons, h]

theorem entryClasses_append (a b : List Node) :
    entryClasses (a ++ b) = entryClasses a ++ entryClasses b := by
  simp [entryClasses]

theorem entryClasses_eraseFirstId (l l1 : List Node)
    (h : eraseFirstId "typing" l = some l1) : entryClasses l1 = entryClasses l := by
  induction l generalizing l1 with
  | nil => simp [eraseFirstId] at h
  | cons n ns ih =>
    unfold eraseFirstId at h
    by_cases hn : n.isId "typing" = true
    · rw [if_pos hn] at h
      simp only [Option.some.injEq] at h
      subst h
      have : isTyping n = true := hn
      rw [entryClasses_cons, if_pos this, List.nil_append]
    · rw [if_neg hn] at h
      cases hi : n.eraseInside "typing" with
      | some n1 =>
        rw [hi] at h
        simp only [Option.some.injEq] at h
        subst h
        obtain ⟨k1, k2⟩ := Node.eraseInside_keeps _ _ _ hi
        rw [entryClasses_cons, entryClasses_cons, k1, k2]
      | none =>
        rw [hi] at h
        cases hr : eraseFirstId "typing" ns with
        | none => rw [hr] at h; cases h
        | some r =>
          rw [hr] at h
          simp only [Option.some.injEq] at h
          subst h
          rw [entryClasses_cons, entryClasses_cons, ih r hr]

/-! ## The handler: lemmas -/

theorem removeTyping_chatText (w : Widget) : (removeTyping w).chatText = w.chatText := rfl

theorem removeTyping_chatTextFocused (w : Widget) :
    (removeTyping w).chatTextFocused = w.chatTextFocused := rfl

theorem removeTyping_sendBtnDisabled (w : Widget) :
    (removeTyping w).sendBtnDisabled = w.sendBtnDisabled := rfl

theorem removeTyping_errorHidden (w : Widget) :
    (removeTyping w).errorHidden = w.errorHidden := rfl

theorem removeTyping_errorText (w : Widget) : (removeTyping w).errorText = w.errorText := rfl

theorem entryClasses_removeTyping (w : Widget) :
    entryClasses (removeTyping w).chatWindow = entryClasses w.chatWindow := by
  unfold removeTyping
  cases h : eraseFirstId "typing" w.chatWindow with
  | none => rfl
  | some l => exact entryClasses_eraseFirstId _ _ h

theorem removeTyping_placed (w : Widget) (t : List Node)
    (hw : w.chatWindow = t ++ [typingNode]) (ht : hasIdIn "typing" t = false) :
    removeTyping w = { w with chatWindow := t } := by
  unfold removeTyping
  rw [hw, eraseFirstId_placed t ht]

theorem removeTyping_clean (w : Widget) (h : hasIdIn "typing" w.chatWindow = false) :
    removeTyping w = w := by
  unfold removeTyping
  rw [eraseFirstId_none _ _ h]

theorem exec_append (parse : String → List Node) (a b : List Cmd) (w : Widget) :
    exec parse (a ++ b) w = exec parse b (exec parse a w) := by
  induction a generalizing w with
  | nil => rfl
  | cons c cs ih => simp [exec, ih]

theorem submitCmds_blank (w : Widget) (h : jsTrim w.chatText = "") :
    submitCmds w = [Cmd.preventDefault] := by
  simp [submitCmds, h]

theorem submitCmds_accept (w : Widget) (h : jsTrim w.chatText ≠ "") :
    submitCmds w =
      [ Cmd.preventDefault, Cmd.setErrorHidden true, Cmd.setErrorText "",
        Cmd.appendMessage Role.user (jsTrim w.chatText), Cmd.setChatText "",
        Cmd.focusChatText, Cmd.setSendDisabled true, Cmd.appendTyping,
        Cmd.fetch (jsTrim w.chatText) ] := by
  simp [submitCmds, h]

theorem exec_submit_accept (parse : String → List Node) (w : Widget)
    (h : jsTrim w.chatText ≠ "") :
    exec parse (submitCmds w) w =
      { chatWindow :=
          w.chatWindow
            ++ [(messageElement Role.user (jsTrim w.chatText)).toNode parse, typingNode]
        chatText := ""
        chatTextFocused := true
        sendBtnDisabled := true
        errorHidden := true
        errorText := "" } := by
  rw [submitCmds_accept w h]
  simp [exec, execCmd, appendMessage, appendTyping]

theorem step_submit (parse : String → List Node) (s : Sys) :
    step parse s Event.submit =
      some { ui := exec parse (submitCmds s.ui) s.ui
             pending := s.pending ++ (calls (submitCmds s.ui)).map Activation.awaitingFetch } :=
  rfl

theorem step_submit_blank (parse : String → List Node) (s : Sys)
    (h : jsTrim s.ui.chatText = "") :
    step parse s Event.submit = some s := by
  rw [step_submit, submitCmds_blank _ h]
  simp [exec, execCmd, calls]

theorem step_submit_accept (parse : String → List Node) (s : Sys)
    (h : jsTrim s.ui.chatText ≠ "") :
    step parse s Event.submit =
      some { ui := exec parse (submitCmds s.ui) s.ui
             pending := s.pending ++ [Activation.awaitingFetch (jsTrim s.ui.chatText)] } := by
  rw [step_submit]
  have : calls (submitCmds s.ui) = [jsTrim s.ui.chatText] := by
    rw [submitCmds_accept _ h]; rfl
  rw [this]; rfl

theorem run_cycle (parse : String → List Node) (s : Sys) (hp : s.pending = [])
    (h : jsTrim s.ui.chatText ≠ "") (o : Outcome) :
    run parse s (Event.submit :: o.events 0)
      = some { ui := exec parse o.cmds (exec parse (submitCmds s.ui) s.ui), pending := [] } := by
  rw [run, step_submit_accept parse s h, hp]
  cases o with
  | response ok data =>
    simp [run, Outcome.events, Outcome.cmds, step, fetchResolvedCmds, exec_append, exec,
      execCmd]
  | transportFailure message =>
    simp [run, Outcome.events, Outcome.cmds, step]
  | unparsableBody ok message =>
    simp [run, Outcome.events, Outcome.cmds, step, fetchResolvedCmds, exec_append, exec,
      execCmd]

/-- The page at the end of a cycle started on a page free of the id `typing` with a
text whose markup creates no element with that id. -/
theorem exec_cycle (parse : String → List Node) (w : Widget)
    (hc : hasIdIn "typing" w.chatWindow = false)
    (ht : hasIdIn "typing" (parse (markup (jsTrim w.chatText))) = false)
    (h : jsTrim w.chatText ≠ "") (o : Outcome) :
    exec parse o.cmds (exec parse (submitCmds w) w) =
      { chatWindow :=
          w.chatWindow ++ (messageElement Role.user (jsTrim w.chatText)).toNode parse ::
            (match o with
             | .response true data =>
               [(messageElement Role.assistant (orDefault data.reply "")).toNode parse]
             | _ => [])
        chatText := ""
        chatTextFocused := true
        sendBtnDisabled := false
        errorHidden :=
          (match o with
           | .response true _ => true
           | _ => false)
        errorText :=
          (match o with
           | .response true _ => ""
           | .response false data => orDefault data.error "Something went wrong"
           | .transportFailure message => message
           | .unparsableBody _ message => message) } := by
  have hu : hasIdIn "typing"
      (w.chatWindow ++ [(messageElement Role.user (jsTrim w.chatText)).toNode parse])
        = false := by
    rw [hasIdIn_append, hc]
    simp [hasIdIn, hasId_toNode, ht]
  have e1 : eraseFirstId "typing"
      (w.chatWindow
        ++ [(messageElement Role.user (jsTrim w.chatText)).toNode parse, typingNode])
      = some (w.chatWindow
          ++ [(messageElement Role.user (jsTrim w.chatText)).toNode parse]) := by
    have := eraseFirstId_placed _ hu
    simpa using this
  have e2 := eraseFirstId_none _ _ hu
  rw [exec_submit_accept parse w h]
  cases o with
  | response ok data =>
    cases ok <;>
      simp [Outcome.cmds, fetchResolvedCmds, bodyParsedCmds, catchCmds, finallyCmds, exec,
        execCmd, removeTyping, appendMessage, e1, e2]
  | transportFailure message =>
    simp [Outcome.cmds, fetchRejectedCmds, catchCmds, finallyCmds, exec, execCmd,
      removeTyping, e1]
  | unparsableBody ok message =>
    simp [Outcome.cmds, fetchResolvedCmds, bodyRejectedCmds, catchCmds, finallyCmds, exec,
      execCmd, removeTyping, e1]

theorem disabled_exec_rejected (parse : String → List Node) (message : String)
    (w : Widget) :
    (exec parse (catchCmds message ++ finallyCmds) w).sendBtnDisabled = false := by
  simp [catchCmds, finallyCmds, exec, execCmd]

theorem disabled_exec_bodyParsed (parse : String → List Node) (ok : Bool) (data : Payload)
    (w : Widget) :
    (exec parse (bodyParsedCmds ok data) w).sendBtnDisabled = false := by
  cases ok <;> simp [bodyParsedCmds, catchCmds, finallyCmds, exec, execCmd]

theorem length_eraseIdx_one (l : List Activation) (i : Nat) (a : Activation)
    (hl : l.length = 1) (hg : l[i]? = some a) : l.eraseIdx i = [] := by
  have hi : i < l.length := by
    rcases List.getElem?_eq_some.mp hg with ⟨hi, _⟩
    exact hi
  have : (l.eraseIdx i).length = 0 := by
    rw [List.length_eraseIdx, if_pos hi, hl]
  exact List.length_eq_zero.mp this

/-- One gated event keeps the widget free or busy. -/
theorem lock_step (parse : String → List Node) (s s1 : Sys) (e : Event)
    (hi : Free s ∨ Busy s) (hd : deliverable s e = true)
    (hs : step parse s e = some s1) : Free s1 ∨ Busy s1 := by
  have nopend : Free s → ∀ i : Nat, s.pending[i]? = none := by
    intro h i
    rw [h.2]
    rfl
  cases e with
  | input v =>
    simp only [step, Option.some.injEq] at hs
    subst hs
    exact hi
  | submit =>
    have hen : s.ui.sendBtnDisabled = false := by simpa [deliverable] using hd
    have hfree : Free s := by
      rcases hi with h | h
      · exact h
      · rw [h.1] at hen; cases hen
    by_cases hb : jsTrim s.ui.chatText = ""
    · rw [step_submit_blank parse s hb] at hs
      cases hs
      exact Or.inl hfree
    · rw [step_submit_accept parse s hb, exec_submit_accept _ _ hb] at hs
      cases hs
      exact Or.inr ⟨rfl, by simp [hfree.2]⟩
  | fetchResolved i ok =>
    cases hg : s.pending[i]? with
    | none => simp [step, hg] at hs
    | some a =>
      rcases hi with h | h
      · rw [nopend h i] at hg; cases hg
      · cases a with
        | awaitingFetch m =>
          simp only [step, hg, Option.some.injEq] at hs
          subst hs
          exact Or.inr ⟨h.1, by simp [h.2]⟩
        | awaitingBody b => simp [step, hg] at hs
  | fetchRejected i message =>
    cases hg : s.pending[i]? with
    | none => simp [step, hg] at hs
    | some a =>
      rcases hi with h | h
      · rw [nopend h i] at hg; cases hg
      · cases a with
        | awaitingFetch m =>
          simp only [step, hg, Option.some.injEq] at hs
          subst hs
          exact Or.inl ⟨disabled_exec_rejected parse message s.ui,
            length_eraseIdx_one _ _ _ h.2 hg⟩
        | awaitingBody b => simp [step, hg] at hs
  | bodyParsed i data =>
    cases hg : s.pending[i]? with
    | none => simp [step, hg] at hs
    | some a =>
      rcases hi with h | h
      · rw [nopend h i] at hg; cases hg
      · cases a with
        | awaitingFetch m => simp [step, hg] at hs
        | awaitingBody b =>
          simp only [step, hg, Option.some.injEq] at hs
          subst hs
          exact Or.inl ⟨disabled_exec_bodyParsed parse b data s.ui,
            length_eraseIdx_one _ _ _ h.2 hg⟩
  | bodyRejected i message =>
    cases hg : s.pending[i]? with
    | none => simp [step, hg] at hs
    | some a =>
      rcases hi with h | h
      · rw [nopend h i] at hg; cases hg
      · cases a with
        | awaitingFetch m => simp [step, hg] at hs
        | awaitingBody b =>
          simp only [step, hg, Option.some.injEq] at hs
          subst hs
          exact Or.inl ⟨disabled_exec_rejected parse message s.ui,
            length_eraseIdx_one _ _ _ h.2 hg⟩

/-- Every state of a gated run from a free or busy widget is free or busy. -/
theorem lock_runGated (parse : String → List Node) (evs : List Event) (s0 s : Sys)
    (h0 : Free s0 ∨ Busy s0) (hr : runGated parse s0 evs = some s) : Free s ∨ Busy s := by
  induction evs generalizing s0 with
  | nil =>
    simp only [runGated, Option.some.injEq] at hr
    subst hr
    exact h0
  | cons e es ih =>
    unfold runGated at hr
    by_cases hd : deliverable s0 e = true
    · rw [if_pos hd] at hr
      cases hs : step parse s0 e with
      | none => rw [hs] at hr; cases hr
      | some s1 =>
        rw [hs] at hr
        exact ih s1 (lock_step parse s0 s1 e h0 hd hs) hr
    · rw [if_neg hd] at hr
      cases hr

theorem cycle_exec_rejected (parse : String → List Node) (message : String) (w : Widget)
    (hp : Placed w) :
    (exec parse (catchCmds message ++ finallyCmds) w).sendBtnDisabled = false
      ∧ typingCount (exec parse (catchCmds message ++ finallyCmds) w) = 0 := by
  obtain ⟨t, hw, ht⟩ := hp
  refine ⟨disabled_exec_rejected parse message w, ?_⟩
  simp [catchCmds, finallyCmds, exec, execCmd, removeTyping_placed w t hw ht, typingCount,
    countP_isTyping_clean t ht]

theorem cycle_exec_bodyParsed (parse : String → List Node) (ok : Bool) (data : Payload)
    (w : Widget) (hp : Placed w) :
    (exec parse (bodyParsedCmds ok data) w).sendBtnDisabled = false
      ∧ typingCount (exec parse (bodyParsedCmds ok data) w) = 0 := by
  obtain ⟨t, hw, ht⟩ := hp
  refine ⟨disabled_exec_bodyParsed parse ok data w, ?_⟩
  have hc : removeTyping { w with chatWindow := t } = { w with chatWindow := t } :=
    removeTyping_clean _ ht
  cases ok
  · simp [bodyParsedCmds, catchCmds, finallyCmds, exec, execCmd,
      removeTyping_placed w t hw ht, hc, typingCount, countP_isTyping_clean t ht]
  · simp [bodyParsedCmds, finallyCmds, exec, execCmd, removeTyping_placed w t hw ht,
      appendMessage, typingCount, List.countP_append, countP_isTyping_clean t ht,
      isTyping_toNode]

/-- An event other than `submit` keeps the widget idle, or busy with its placeholder
the only element with id `typing`. -/
theorem cycle_step (parse : String → List Node) (s s1 : Sys) (e : Event)
    (hi : Idle s ∨ (Busy s ∧ Placed s.ui)) (he : e ≠ Event.submit)
    (hs : step parse s e = some s1) : Idle s1 ∨ (Busy s1 ∧ Placed s1.ui) := by
  have nopend : Idle s → ∀ i : Nat, s.pending[i]? = none := by
    intro h i
    rw [h.2.2]
    rfl
  cases e with
  | input v =>
    simp only [step, Option.some.injEq] at hs
    subst hs
    exact hi
  | submit => exact absurd rfl he
  | fetchResolved i ok =>
    cases hg : s.pending[i]? with
    | none => simp [step, hg] at hs
    | some a =>
      rcases hi with h | h
      · rw [nopend h i] at hg; cases hg
      · cases a with
        | awaitingFetch m =>
          simp only [step, hg, Option.some.injEq] at hs
          subst hs
          exact Or.inr ⟨⟨h.1.1, by simp [h.1.2]⟩, h.2⟩
        | awaitingBody b => simp [step, hg] at hs
  | fetchRejected i message =>
    cases hg : s.pending[i]? with
    | none => simp [step, hg] at hs
    | some a =>
      rcases hi with h | h
      · rw [nopend h i] at hg; cases hg
      · cases a with
        | awaitingFetch m =>
          simp only [step, hg, Option.some.injEq] at hs
          subst hs
          have k := cycle_exec_rejected parse message s.ui h.2
          exact Or.inl ⟨k.1, k.2, length_eraseIdx_one _ _ _ h.1.2 hg⟩
        | awaitingBody b => simp [step, hg] at hs
  | bodyParsed i data =>
    cases hg : s.pending[i]? with
    | none => simp [step, hg] at hs
    | some a =>
      rcases hi with h | h
      · rw [nopend h i] at hg; cases hg
      · cases a with
        | awaitingFetch m => simp [step, hg] at hs
        | awaitingBody b =>
          simp only [step, hg, Option.some.injEq] at hs
          subst hs
          have k := cycle_exec_bodyParsed parse b data s.ui h.2
          exact Or.inl ⟨k.1, k.2, length_eraseIdx_one _ _ _ h.1.2 hg⟩
  | bodyRejected i message =>
    cases hg : s.pending[i]? with
    | none => simp [step, hg] at hs
    | some a =>
      rcases hi with h | h
      · rw [nopend h i] at hg; cases hg
      · cases a with
        | awaitingFetch m => simp [step, hg] at hs
        | awaitingBody b =>
          simp only [step, hg, Option.some.injEq] at hs
          subst hs
          have k := cycle_exec_rejected parse message s.ui h.2
          exact Or.inl ⟨k.1, k.2, length_eraseIdx_one _ _ _ h.1.2 hg⟩

theorem cycle_run (parse : String → List Node) (es : List Event) (s0 s : Sys)
    (h0 : Idle s0 ∨ (Busy s0 ∧ Placed s0.ui)) (hn : ∀ e ∈ es, e ≠ Event.submit)
    (hr : run parse s0 es = some s) : Idle s ∨ (Busy s ∧ Placed s.ui) := by
  induction es generalizing s0 with
  | nil =>
    simp only [run, Option.some.injEq] at hr
    subst hr
    exact h0
  | cons e es ih =>
    unfold run at hr
    cases hs : step parse s0 e with
    | none => rw [hs] at hr; cases hr
    | some s1 =>
      rw [hs] at hr
      exact ih s1 (cycle_step parse s0 s1 e h0 (hn e (List.mem_cons_self _ _)) hs)
        (fun x hx => hn x (List.mem_cons_of_mem _ hx)) hr

theorem placeholder_iff_of_cycle (s : Sys) (h : Idle s ∨ (Busy s ∧ Placed s.ui)) :
    placeholderPresent s.ui = true ↔ s.ui.sendBtnDisabled = true := by
  unfold placeholderPresent
  rcases h with h | h
  · rw [any_iff_countP_pos]
    have h1 : List.countP isTyping s.ui.chatWindow = 0 := h.2.1
    rw [h1, h.1]
    simp
  · obtain ⟨t, hw, _⟩ := h.2
    rw [hw, h.1.1]
    simp [isTyping_typingNode]

theorem events_ne_submit (o : Outcome) (i : Nat) : ∀ e ∈ o.events i, e ≠ Event.submit := by
  cases o <;> simp [Outcome.events]

/-- A non-blank text typed and submitted on a widget with no call pending. -/
theorem gated_submit_accept (parse : String → List Node) (s : Sys) (hp : s.pending = [])
    (hd : s.ui.sendBtnDisabled = false) (v : String) (hv : jsTrim v ≠ "") :
    runGated parse s [Event.input v, Event.submit] =
      some { ui :=
               { chatWindow :=
                   s.ui.chatWindow
                     ++ [(messageElement Role.user (jsTrim v)).toNode parse, typingNode]
                 chatText := ""
                 chatTextFocused := true
                 sendBtnDisabled := true
                 errorHidden := true
                 errorText := "" }
             pending := [Activation.awaitingFetch (jsTrim v)] } := by
  obtain ⟨w, pend⟩ := s
  obtain ⟨cw, ct, cf, sd, eh, et⟩ := w
  simp only at hp hd
  subst hp
  subst hd
  have h3 := step_submit_accept parse (Sys.mk (Widget.mk cw v cf false eh et) []) hv
  rw [exec_submit_accept _ _ hv] at h3
  have h0 : deliverable (Sys.mk (Widget.mk cw ct cf false eh et) []) (Event.input v) = true :=
    rfl
  have h1 : step parse (Sys.mk (Widget.mk cw ct cf false eh et) []) (Event.input v)
      = some (Sys.mk (Widget.mk cw v cf false eh et) []) := rfl
  have h2 : deliverable (Sys.mk (Widget.mk cw v cf false eh et) []) Event.submit = true := rfl
  rw [runGated, if_pos h0, h1]
  show runGated parse _ [Event.submit] = _
  rw [runGated, if_pos h2, h3]
  rfl

theorem exec_cmds_fields (parse : String → List Node) (o : Outcome) (w : Widget) :
    (exec parse o.cmds w).sendBtnDisabled = false
      ∧ (exec parse o.cmds w).errorHidden
          = (match o with
             | .response true _ => w.errorHidden
             | _ => false)
      ∧ (exec parse o.cmds w).errorText
          = (match o with
             | .response true _ => w.errorText
             | .response false data => orDefault data.error "Something went wrong"
             | .transportFailure message => message
             | .unparsableBody _ message => message) := by
  cases o with
  | response ok data =>
    cases ok <;>
      simp [Outcome.cmds, fetchResolvedCmds, bodyParsedCmds, catchCmds, finallyCmds, exec,
        execCmd, appendMessage, removeTyping_errorHidden, removeTyping_errorText]
  | transportFailure message =>
    simp [Outcome.cmds, fetchRejectedCmds, catchCmds, finallyCmds, exec, execCmd]
  | unparsableBody ok message =>
    simp [Outcome.cmds, fetchResolvedCmds, bodyRejectedCmds, catchCmds, finallyCmds, exec,
      execCmd]

theorem entryClasses_exec_cmds (parse : String → List Node) (o : Outcome) (w : Widget) :
    entryClasses (exec parse o.cmds w).chatWindow
      = entryClasses w.chatWindow
          ++ (match o with
              | .response true _ => ["message assistant"]
              | _ => []) := by
  have k1 : ∀ v : Widget, entryClasses (removeTyping v).chatWindow
      = entryClasses v.chatWindow := entryClasses_removeTyping
  have k2 : ∀ (text : String) (v : Widget),
      entryClasses (appendMessage parse Role.assistant text v).chatWindow
        = entryClasses v.chatWindow ++ ["message assistant"] := by
    intro text v
    show entryClasses (v.chatWindow ++ _) = _
    rw [entryClasses_append]
    simp [entryClasses_cons, isTyping_toNode, className_toNode, Role.name, entryClasses]
  cases o with
  | response ok data =>
    cases ok
    · show entryClasses (removeTyping (removeTyping w)).chatWindow = _
      rw [k1, k1]
      simp
    · show entryClasses
          (appendMessage parse Role.assistant _ (removeTyping w)).chatWindow = _
      rw [k2, k1]
  | transportFailure message =>
    show entryClasses (removeTyping w).chatWindow = _
    rw [k1]
    simp
  | unparsableBody ok message =>
    show entryClasses (removeTyping w).chatWindow = _
    rw [k1]
    simp

theorem entryClasses_exec_submit (parse : String → List Node) (w : Widget)
    (h : jsTrim w.chatText ≠ "") :
    entryClasses (exec parse (submitCmds w) w).chatWindow
      = entryClasses w.chatWindow ++ ["message user"] := by
  rw [exec_submit_accept _ _ h]
  simp [entryClasses_append, entryClasses_cons, isTyping_toNode, isTyping_typingNode,
    className_toNode, Role.name, entryClasses]

/-! ## Claims on the submit cycle -/

/-- C1, as stated, fails: the handler has no test of its own, so a `submit` event
dispatched while a call is awaiting its response (button disabled, one activation
suspended) is processed: it appends to the transcript and starts a second call. -/
theorem submit_while_awaiting_starts_second_call :
    Idle (fresh "a")
      ∧ (run sampleParse (fresh "a") [Event.submit, Event.input "b"]).map
          (fun s => (s.ui.sendBtnDisabled, s.pending, s.ui.chatWindow.length))
        = some (true, [Activation.awaitingFetch "a"], 2)
      ∧ (run sampleParse (fresh "a") [Event.submit, Event.input "b", Event.submit]).map
          (fun s => (s.pending, s.ui.chatWindow.length))
        = some ([Activation.awaitingFetch "a", Activation.awaitingFetch "b"], 4) := by
  decide

/-- C1, amended. Starting from an idle widget, for every sequence of edits, submit
events and promise settlements in which a submit event is dispatched only while the
submit button is enabled, every reachable state has at most one endpoint call
outstanding; while one is outstanding the button is disabled, so no submit event can
be dispatched, and with none outstanding the button is enabled. -/
theorem gated_mutual_exclusion (parse : String → List Node) (s0 s : Sys)
    (evs : List Event) (h0 : Idle s0) (hr : runGated parse s0 evs = some s) :
    s.pending.length ≤ 1
      ∧ (s.pending ≠ [] →
          s.ui.sendBtnDisabled = true ∧ deliverable s Event.submit = false)
      ∧ (s.pending = [] → s.ui.sendBtnDisabled = false) := by
  rcases lock_runGated parse evs s0 s (Or.inl ⟨h0.1, h0.2.2⟩) hr with h | h
  · refine ⟨by simp [h.2], fun hne => absurd h.2 hne, fun _ => h.1⟩
  · refine ⟨by rw [h.2], fun _ => ⟨h.1, by simp [deliverable, h.1]⟩, fun he => ?_⟩
    have := h.2
    rw [he] at this
    cases this

/-- The gated run `submit, fetch resolved` from the idle widget holding `"a"`. -/
theorem gated_mutual_exclusion_witness :
    (Sys.mk (exec sampleParse (submitCmds (freshWidget "a")) (freshWidget "a"))
      [Activation.awaitingBody true]).pending.length ≤ 1 :=
  (gated_mutual_exclusion sampleParse (fresh "a")
    (Sys.mk (exec sampleParse (submitCmds (freshWidget "a")) (freshWidget "a"))
      [Activation.awaitingBody true])
    [Event.submit, Event.fetchResolved 0 true] (by decide) rfl).1

/-- C2. Blank input is a no-op: when the trimmed input is empty (which is exactly
when every character of the input is white space), the submit event leaves the whole
widget (transcript, error surface, input text, button flag, placeholder, suspended
activations) unchanged and starts no endpoint call. -/
theorem blank_submit_noop (parse : String → List Node) (s : Sys)
    (h : jsTrim s.ui.chatText = "") :
    (jsTrim s.ui.chatText = "" ↔ ∀ c ∈ s.ui.chatText.data, isJsWhiteSpace c = true)
      ∧ step parse s Event.submit = some s
      ∧ exec parse (submitCmds s.ui) s.ui = s.ui
      ∧ calls (submitCmds s.ui) = [] := by
  refine ⟨jsTrim_eq_empty_iff _, step_submit_blank parse s h, ?_, ?_⟩
  · rw [submitCmds_blank _ h]; rfl
  · rw [submitCmds_blank _ h]; rfl

/-- A white-space-only input typed into a widget whose call is pending. -/
theorem blank_submit_noop_witness :
    step sampleParse
        { ui := { freshWidget " \t\n" with sendBtnDisabled := true }
          pending := [Activation.awaitingFetch "x"] } Event.submit
      = some { ui := { freshWidget " \t\n" with sendBtnDisabled := true }
               pending := [Activation.awaitingFetch "x"] } :=
  (blank_submit_noop sampleParse
    { ui := { freshWidget " \t\n" with sendBtnDisabled := true }
      pending := [Activation.awaitingFetch "x"] } (by decide)).2.1

/-- C3, as stated, fails: the submitted text `<i id="typing">x</i>` puts an element
with id `typing` into the user bubble, ahead of the placeholder; on an ok reply the
lookup of `removeTyping()` removes that element, so the cycle ends with the placeholder
still in the transcript while the submit button is enabled. -/
theorem injected_id_breaks_placeholder_iff :
    Idle (fresh "<i id=\"typing\">x</i>")
      ∧ (run sampleParse (fresh "<i id=\"typing\">x</i>")
            (Event.submit ::
              (Outcome.response true { reply := some "Hello", error := none }).events 0)).map
          (fun s => (placeholderPresent s.ui, s.ui.sendBtnDisabled))
        = some (true, false) := by
  decide

/-- C3, amended. Placeholder tracks the submit state: from an idle widget whose
transcript holds no element with id `typing`, with an input whose markup creates no
such element, in every state along a submit cycle (before the submit, at each
suspension point, after the cycle, for every outcome) the placeholder is in the
transcript iff the submit button is disabled. -/
theorem placeholder_tracks_submit_state (parse : String → List Node) (s0 : Sys)
    (h0 : Idle s0) (hT : hasIdIn "typing" s0.ui.chatWindow = false)
    (ht : hasIdIn "typing" (parse (markup (jsTrim s0.ui.chatText))) = false)
    (o : Outcome) (k : Nat) (s : Sys)
    (hr : run parse s0 ((Event.submit :: o.events 0).take k) = some s) :
    placeholderPresent s.ui = true ↔ s.ui.sendBtnDisabled = true := by
  apply placeholder_iff_of_cycle
  cases k with
  | zero =>
    simp only [List.take_zero, run, Option.some.injEq] at hr
    subst hr
    exact Or.inl h0
  | succ k =>
    rw [List.take_succ_cons] at hr
    have hn : ∀ e ∈ (o.events 0).take k, e ≠ Event.submit :=
      fun e he => events_ne_submit o 0 e (List.mem_of_mem_take he)
    unfold run at hr
    by_cases hb : jsTrim s0.ui.chatText = ""
    · rw [step_submit_blank parse s0 hb] at hr
      exact cycle_run parse _ s0 s (Or.inl h0) hn hr
    · rw [step_submit_accept parse s0 hb] at hr
      refine cycle_run parse _ _ s (Or.inr ⟨⟨?_, ?_⟩, ?_⟩) hn hr
      · show (exec parse (submitCmds s0.ui) s0.ui).sendBtnDisabled = true
        rw [exec_submit_accept _ _ hb]
      · simp [h0.2.2]
      · show Placed (exec parse (submitCmds s0.ui) s0.ui)
        rw [exec_submit_accept _ _ hb]
        refine ⟨s0.ui.chatWindow
          ++ [(messageElement Role.user (jsTrim s0.ui.chatText)).toNode parse], ?_, ?_⟩
        · simp
        · rw [hasIdIn_append, hT]
          simp [hasIdIn, hasId_toNode, ht]

/-- The suspended state after `submit, fetch resolved` from the idle widget holding
`"hi"`. -/
theorem placeholder_tracks_submit_state_witness :
    placeholderPresent
        (exec sampleParse (submitCmds (freshWidget "hi")) (freshWidget "hi")) = true
      ↔ (exec sampleParse (submitCmds (freshWidget "hi")) (freshWidget "hi")).sendBtnDisabled
          = true :=
  placeholder_tracks_submit_state sampleParse (fresh "hi") (by decide) (by decide)
    (by decide) (Outcome.response false { reply := none, error := none }) 2
    (Sys.mk (exec sampleParse (submitCmds (freshWidget "hi")) (freshWidget "hi"))
      [Activation.awaitingBody false]) rfl

/-- C4, as stated, fails: with the submitted text `<i id="typing">x</i>` the lookup
of `removeTyping()` finds the element inside the user bubble first.  On an ok reply
the cycle ends with the button enabled and the placeholder still in the transcript;
on a not-ok response `el.remove()` runs twice. -/
theorem injected_id_breaks_release :
    Idle (fresh "<i id=\"typing\">x</i>")
      ∧ (run sampleParse (fresh "<i id=\"typing\">x</i>")
            (Event.submit ::
              (Outcome.response true { reply := some "Hello", error := none }).events 0)).map
          (fun s => (s.ui.sendBtnDisabled, typingCount s.ui))
        = some (false, 1)
      ∧ removals sampleParse
          (Outcome.response false { reply := none, error := none }).cmds
          (exec sampleParse (submitCmds (freshWidget "<i id=\"typing\">x</i>"))
            (freshWidget "<i id=\"typing\">x</i>"))
        = 2 := by
  decide

/-- C4, amended. Guaranteed release: from an idle widget with a non-blank input the
submit is accepted (button disabled, one placeholder, one call); for every outcome the
cycle completes, the button is enabled again, no call is outstanding, and a following
non-blank submit is dispatched and accepted.  When moreover the transcript before the
submit holds no element with id `typing` and the markup of the submitted text creates
none, exactly one removal is carried out and no placeholder remains. -/
theorem guaranteed_release (parse : String → List Node) (s0 : Sys) (h0 : Idle s0)
    (h : jsTrim s0.ui.chatText ≠ "") (o : Outcome) :
    ∃ s1 s2 : Sys,
      step parse s0 Event.submit = some s1
        ∧ s1.ui.sendBtnDisabled = true ∧ typingCount s1.ui = 1
        ∧ s1.pending = [Activation.awaitingFetch (jsTrim s0.ui.chatText)]
        ∧ run parse s1 (o.events 0) = some s2
        ∧ s2.ui = exec parse o.cmds s1.ui
        ∧ s2.ui.sendBtnDisabled = false
        ∧ s2.pending = []
        ∧ (∀ v : String, jsTrim v ≠ "" →
            ∃ s3 : Sys, runGated parse s2 [Event.input v, Event.submit] = some s3
              ∧ s3.pending = [Activation.awaitingFetch (jsTrim v)]
              ∧ s3.ui.chatWindow
                  = s2.ui.chatWindow
                      ++ [(messageElement Role.user (jsTrim v)).toNode parse, typingNode]
              ∧ s3.ui.sendBtnDisabled = true)
        ∧ (hasIdIn "typing" s0.ui.chatWindow = false →
            hasIdIn "typing" (parse (markup (jsTrim s0.ui.chatText))) = false →
            removals parse o.cmds s1.ui = 1
              ∧ typingCount s2.ui = 0 ∧ placeholderPresent s2.ui = false) := by
  have hc : List.countP isTyping s0.ui.chatWindow = 0 := h0.2.1
  have hrun := run_cycle parse s0 h0.2.2 h o
  have hstep := step_submit_accept parse s0 h
  rw [h0.2.2, List.nil_append] at hstep
  have hd : (exec parse o.cmds (exec parse (submitCmds s0.ui) s0.ui)).sendBtnDisabled
      = false := (exec_cmds_fields parse o _).1
  refine ⟨Sys.mk (exec parse (submitCmds s0.ui) s0.ui)
      [Activation.awaitingFetch (jsTrim s0.ui.chatText)],
    Sys.mk (exec parse o.cmds (exec parse (submitCmds s0.ui) s0.ui)) [],
    hstep, ?_, ?_, rfl, ?_, rfl, hd, rfl, ?_, ?_⟩
  · rw [exec_submit_accept _ _ h]
  · rw [exec_submit_accept _ _ h]
    simp [typingCount, List.countP_append, hc, List.countP_cons, isTyping_toNode,
      isTyping_typingNode]
  · unfold run at hrun
    rw [hstep] at hrun
    exact hrun
  · intro v hv
    exact ⟨_, gated_submit_accept parse
      (Sys.mk (exec parse o.cmds (exec parse (submitCmds s0.ui) s0.ui)) [])
      rfl hd v hv, rfl, rfl, rfl⟩
  · intro hT ht
    have hany : s0.ui.chatWindow.any isTyping = false := by
      rw [Bool.eq_false_iff, Ne, any_iff_countP_pos, hc]; simp
    have hu : hasIdIn "typing"
        (s0.ui.chatWindow
          ++ [(messageElement Role.user (jsTrim s0.ui.chatText)).toNode parse])
          = false := by
      rw [hasIdIn_append, hT]
      simp [hasIdIn, hasId_toNode, ht]
    have hfull : hasIdIn "typing"
        (s0.ui.chatWindow
          ++ [(messageElement Role.user (jsTrim s0.ui.chatText)).toNode parse, typingNode])
          = true := by
      rw [hasIdIn_append]
      simp [hasIdIn, typingNode, Node.hasId]
    have e1 : eraseFirstId "typing"
        (s0.ui.chatWindow
          ++ [(messageElement Role.user (jsTrim s0.ui.chatText)).toNode parse, typingNode])
        = some (s0.ui.chatWindow
            ++ [(messageElement Role.user (jsTrim s0.ui.chatText)).toNode parse]) := by
      have := eraseFirstId_placed _ hu
      simpa using this
    refine ⟨?_, ?_, ?_⟩
    · show removals parse o.cmds (exec parse (submitCmds s0.ui) s0.ui) = 1
      rw [exec_submit_accept _ _ h]
      cases o with
      | response ok data =>
        cases ok <;>
          simp [Outcome.cmds, fetchResolvedCmds, bodyParsedCmds, catchCmds, finallyCmds,
            removals, execCmd, removeTyping, appendMessage, e1, hu, hfull]
      | transportFailure message =>
        simp [Outcome.cmds, fetchRejectedCmds, catchCmds, finallyCmds, removals, execCmd,
          removeTyping, e1, hu, hfull]
      | unparsableBody ok message =>
        simp [Outcome.cmds, fetchResolvedCmds, bodyRejectedCmds, catchCmds, finallyCmds,
          removals, execCmd, removeTyping, e1, hu, hfull]
    · show typingCount (exec parse o.cmds (exec parse (submitCmds s0.ui) s0.ui)) = 0
      rw [exec_cycle _ _ hT ht h]
      cases o with
      | response ok data =>
        cases ok <;>
          simp [typingCount, List.countP_append, hc, List.countP_cons, isTyping_toNode]
      | transportFailure message =>
        simp [typingCount, List.countP_append, hc, List.countP_cons, isTyping_toNode]
      | unparsableBody ok message =>
        simp [typingCount, List.countP_append, hc, List.countP_cons, isTyping_toNode]
    · show placeholderPresent (exec parse o.cmds (exec parse (submitCmds s0.ui) s0.ui))
          = false
      rw [exec_cycle _ _ hT ht h]
      cases o with
      | response ok data =>
        cases ok <;>
          simp [placeholderPresent, hany, isTyping_toNode]
      | transportFailure message =>
        simp [placeholderPresent, hany, isTyping_toNode]
      | unparsableBody ok message =>
        simp [placeholderPresent, hany, isTyping_toNode]

/-- The idle widget holding `"hi"`, call ended by a not-ok response. -/
theorem guaranteed_release_witness :
    ∃ s1 s2 : Sys,
      step sampleParse (fresh "hi") Event.submit = some s1
        ∧ run sampleParse s1
            ((Outcome.response false { reply := none, error := none }).events 0)
            = some s2
        ∧ s2.ui.sendBtnDisabled = false
        ∧ removals sampleParse
            (Outcome.response false { reply := none, error := none }).cmds s1.ui = 1
        ∧ typingCount s2.ui = 0 := by
  obtain ⟨s1, s2, a, _, _, _, b, _, c, _, _, d⟩ :=
    guaranteed_release sampleParse (fresh "hi") (by decide) (by decide)
      (Outcome.response false { reply := none, error := none })
  exact ⟨s1, s2, a, b, c, (d (by decide) (by decide)).1, (d (by decide) (by decide)).2.1⟩

/-- C5, as stated, fails: with the submitted text `<i id="typing">x</i>` and the ok
reply `"Hello"` the cycle ends with three children: the user entry with its bubble
emptied, the placeholder, and the assistant entry. -/
theorem injected_id_breaks_success_transcript :
    Idle (fresh "<i id=\"typing\">x</i>")
      ∧ (run sampleParse (fresh "<i id=\"typing\">x</i>")
            (Event.submit ::
              (Outcome.response true { reply := some "Hello", error := none }).events 0)).map
          (fun s => shown s.ui.chatWindow)
        = some [ ("", "message user", "🧍‍♂️"),
                 ("typing", "message assistant", "🕊️"),
                 ("", "message assistant", "🕊️Hello") ] := by
  decide

/-- C5, amended. Success path: from an idle widget with transcript `T` and an input
whose trimmed text `t` is non-empty, an ok response ends the cycle with exactly one
assistant entry appended after the user entry, built from the reply when it is a
non-empty string and from the empty string when the reply is `""` or missing; the
error surface is hidden with empty text, whatever it showed before.  When moreover `T`
holds no element with id `typing` and the markup of `t` creates none, the transcript
ends as `T`, the user entry for `t`, then that assistant entry. -/
theorem success_path (parse : String → List Node) (s0 : Sys) (h0 : Idle s0)
    (h : jsTrim s0.ui.chatText ≠ "") (data : Payload) :
    ∃ (s2 : Sys) (r : String),
      run parse s0 (Event.submit :: (Outcome.response true data).events 0) = some s2
        ∧ (∀ x : String, data.reply = some x → x ≠ "" → r = x)
        ∧ (data.reply = some "" ∨ data.reply = none → r = "")
        ∧ (Outcome.response true data).cmds.filter isAppend
            = [Cmd.appendMessage Role.assistant r]
        ∧ entryClasses s2.ui.chatWindow
            = entryClasses s0.ui.chatWindow ++ ["message user", "message assistant"]
        ∧ s2.ui.errorHidden = true
        ∧ s2.ui.errorText = ""
        ∧ (hasIdIn "typing" s0.ui.chatWindow = false →
            hasIdIn "typing" (parse (markup (jsTrim s0.ui.chatText))) = false →
            s2.ui.chatWindow
              = s0.ui.chatWindow
                  ++ [(messageElement Role.user (jsTrim s0.ui.chatText)).toNode parse,
                      (messageElement Role.assistant r).toNode parse]) := by
  have hf := exec_cmds_fields parse (Outcome.response true data)
    (exec parse (submitCmds s0.ui) s0.ui)
  refine ⟨_, orDefault data.reply "", run_cycle parse s0 h0.2.2 h _, ?_, ?_, ?_, ?_, ?_,
    ?_, ?_⟩
  · intro x hx hne
    simp [orDefault, hx, hne]
  · intro hx
    rcases hx with hx | hx <;> simp [orDefault, hx]
  · simp [Outcome.cmds, fetchResolvedCmds, bodyParsedCmds, finallyCmds, isAppend]
  · show entryClasses (exec _ _ _).chatWindow = _
    rw [entryClasses_exec_cmds, entryClasses_exec_submit _ _ h]
    simp
  · show (exec _ _ _).errorHidden = _
    rw [hf.2.1, exec_submit_accept _ _ h]
  · show (exec _ _ _).errorText = _
    rw [hf.2.2, exec_submit_accept _ _ h]
  · intro hT ht
    show (exec _ _ _).chatWindow = _
    rw [exec_cycle _ _ hT ht h]

/-- An idle widget showing an old error, input `" hi "`, reply `"Hello"`. -/
theorem success_path_witness :
    ∃ (s2 : Sys) (r : String),
      run sampleParse
          { ui := { freshWidget " hi " with errorHidden := false, errorText := "old" }
            pending := [] }
          (Event.submit ::
            (Outcome.response true { reply := some "Hello", error := none }).events 0)
        = some s2
        ∧ s2.ui.chatWindow
            = [(messageElement Role.user "hi").toNode sampleParse,
               (messageElement Role.assistant r).toNode sampleParse]
        ∧ r = "Hello"
        ∧ s2.ui.errorHidden = true
        ∧ s2.ui.errorText = "" := by
  obtain ⟨s2, r, a, c, _, _, _, d, e, b⟩ :=
    success_path sampleParse
      { ui := { freshWidget " hi " with errorHidden := false, errorText := "old" }
        pending := [] }
      (by decide) (by decide) { reply := some "Hello", error := none }
  exact ⟨s2, r, a, b (by decide) (by decide), c "Hello" rfl (by decide), d, e⟩

/-- C6, as stated, fails when the not-ok response provides the empty string as its
error text: the error surface shows the generic fallback, not that text. -/
theorem empty_error_text_shows_fallback :
    ({ reply := none, error := some "" } : Payload).error = some ""
      ∧ (run sampleParse (fresh "hi")
            (Event.submit ::
              (Outcome.response false { reply := none, error := some "" }).events 0)).map
          (fun s => (s.ui.errorHidden, s.ui.errorText))
        = some (false, "Something went wrong")
      ∧ "Something went wrong" ≠ "" := by
  decide

/-- C6, amended. Endpoint-signalled failure: from an idle widget with a non-blank
input, a not-ok response makes the error surface visible; it shows exactly the
response's error text when that text is a non-empty string, and
`"Something went wrong"` when the error text is missing or empty; no assistant entry
is appended (no statement run after the response calls `appendMessage`, and the
entries of the transcript are those before the submit plus one user entry), and the
submit button is enabled again.  This holds for every input text and transcript. -/
theorem endpoint_failure (parse : String → List Node) (s0 : Sys) (h0 : Idle s0)
    (h : jsTrim s0.ui.chatText ≠ "") (data : Payload) :
    ∃ s2 : Sys,
      run parse s0 (Event.submit :: (Outcome.response false data).events 0) = some s2
        ∧ s2.ui.errorHidden = false
        ∧ (∀ e : String, data.error = some e → e ≠ "" → s2.ui.errorText = e)
        ∧ (data.error = none ∨ data.error = some "" →
            s2.ui.errorText = "Something went wrong")
        ∧ (∀ c ∈ (Outcome.response false data).cmds, isAppend c = false)
        ∧ entryClasses s2.ui.chatWindow
            = entryClasses s0.ui.chatWindow ++ ["message user"]
        ∧ s2.ui.sendBtnDisabled = false
        ∧ (hasIdIn "typing" s0.ui.chatWindow = false →
            hasIdIn "typing" (parse (markup (jsTrim s0.ui.chatText))) = false →
            s2.ui.chatWindow
              = s0.ui.chatWindow
                  ++ [(messageElement Role.user (jsTrim s0.ui.chatText)).toNode parse]) := by
  have hf : ∀ w : Widget,
      exec parse (Outcome.response false data).cmds w
        = { removeTyping (removeTyping w) with
            errorHidden := false
            errorText := orDefault data.error "Something went wrong"
            sendBtnDisabled := false } := by
    intro w
    simp [Outcome.cmds, fetchResolvedCmds, bodyParsedCmds, catchCmds, finallyCmds, exec,
      execCmd]
  refine ⟨_, run_cycle parse s0 h0.2.2 h _, ?_, ?_, ?_, ?_, ?_, ?_, ?_⟩
  · show (exec _ _ _).errorHidden = _
    rw [hf]
  · intro e he hne
    show (exec _ _ _).errorText = _
    rw [hf]
    simp [orDefault, he, hne]
  · intro he
    show (exec _ _ _).errorText = _
    rw [hf]
    rcases he with he | he <;> simp [orDefault, he]
  · intro c hc
    simp only [Outcome.cmds, fetchResolvedCmds, bodyParsedCmds, catchCmds, finallyCmds,
      Bool.not_false, if_true, List.cons_append, List.nil_append, List.mem_cons,
      List.mem_singleton, List.not_mem_nil, or_false] at hc
    rcases hc with hc | hc | hc | hc | hc | hc <;> subst hc <;> rfl
  · show entryClasses (exec _ _ _).chatWindow = _
    rw [hf]
    show entryClasses (removeTyping (removeTyping _)).chatWindow = _
    rw [entryClasses_removeTyping, entryClasses_removeTyping, exec_submit_accept _ _ h]
    simp [entryClasses_append, entryClasses_cons, isTyping_toNode, isTyping_typingNode,
      className_toNode, Role.name, entryClasses]
  · show (exec _ _ _).sendBtnDisabled = _
    rw [hf]
  · intro hT ht
    show (exec _ _ _).chatWindow = _
    rw [exec_cycle _ _ hT ht h]

/-- Input `"hi"`, not-ok response with error text `"rate limited"`. -/
theorem endpoint_failure_witness :
    ∃ s2 : Sys,
      run sampleParse (fresh "hi")
          (Event.submit ::
            (Outcome.response false { reply := none, error := some "rate limited" }).events 0)
        = some s2
        ∧ s2.ui.errorHidden = false
        ∧ s2.ui.errorText = "rate limited"
        ∧ s2.ui.chatWindow = [(messageElement Role.user "hi").toNode sampleParse]
        ∧ s2.ui.sendBtnDisabled = false := by
  obtain ⟨s2, a, b, c, _, _, _, e, d⟩ :=
    endpoint_failure sampleParse (fresh "hi") (by decide) (by decide)
      { reply := none, error := some "rate limited" }
  exact ⟨s2, a, b, c "rate limited" rfl (by decide), d (by decide) (by decide), e⟩

/-- C7. User entry precedes the single call: for an input whose trimmed text `t` is
non-empty, the handler's statements up to its first `await` contain exactly one
`appendMessage`, for role user and text `t`, placed before the only `fetch`, whose
message is `t`; when the call starts the transcript has gained that user entry (and
the placeholder), one activation is suspended, and no statement run after any
settlement starts another call. -/
theorem user_entry_precedes_single_call (parse : String → List Node) (s : Sys)
    (h : jsTrim s.ui.chatText ≠ "") :
    (∃ pre mid : List Cmd,
        submitCmds s.ui
            = pre ++ Cmd.appendMessage Role.user (jsTrim s.ui.chatText) :: mid
                ++ [Cmd.fetch (jsTrim s.ui.chatText)]
          ∧ (∀ c ∈ pre ++ mid, isAppend c = false)
          ∧ calls pre = [] ∧ calls mid = []
          ∧ (exec parse (pre ++ Cmd.appendMessage Role.user (jsTrim s.ui.chatText) :: mid)
                s.ui).chatWindow
              = s.ui.chatWindow
                  ++ [(messageElement Role.user (jsTrim s.ui.chatText)).toNode parse,
                      typingNode])
      ∧ (submitCmds s.ui).countP isAppend = 1
      ∧ calls (submitCmds s.ui) = [jsTrim s.ui.chatText]
      ∧ (∃ s1 : Sys, step parse s Event.submit = some s1
          ∧ s1.pending = s.pending ++ [Activation.awaitingFetch (jsTrim s.ui.chatText)]
          ∧ s1.ui.chatWindow
              = s.ui.chatWindow
                  ++ [(messageElement Role.user (jsTrim s.ui.chatText)).toNode parse,
                      typingNode])
      ∧ (∀ o : Outcome, calls o.cmds = []) := by
  refine ⟨⟨[Cmd.preventDefault, Cmd.setErrorHidden true, Cmd.setErrorText ""],
      [Cmd.setChatText "", Cmd.focusChatText, Cmd.setSendDisabled true, Cmd.appendTyping],
      ?_, ?_, rfl, rfl, ?_⟩, ?_, ?_, ⟨_, step_submit_accept parse s h, rfl, ?_⟩, ?_⟩
  · rw [submitCmds_accept _ h]; rfl
  · intro c hc
    simp only [List.cons_append, List.nil_append, List.mem_cons, List.mem_singleton,
      List.not_mem_nil, or_false] at hc
    rcases hc with hc | hc | hc | hc | hc | hc | hc <;> subst hc <;> rfl
  · simp [exec, execCmd, appendMessage, appendTyping]
  · rw [submitCmds_accept _ h]; rfl
  · rw [submitCmds_accept _ h]; rfl
  · show (exec _ _ _).chatWindow = _
    rw [exec_submit_accept _ _ h]
  · intro o
    cases o with
    | response ok data =>
      cases ok <;> rfl
    | transportFailure message => rfl
    | unparsableBody ok message => rfl

/-- The input `" hi "` typed into the idle widget. -/
theorem user_entry_precedes_single_call_witness :
    (submitCmds (fresh " hi ").ui).countP isAppend = 1
      ∧ calls (submitCmds (fresh " hi ").ui) = ["hi"] :=
  ⟨(user_entry_precedes_single_call sampleParse (fresh " hi ") (by decide)).2.1,
    (user_entry_precedes_single_call sampleParse (fresh " hi ") (by decide)).2.2.1⟩

/-- C9, as stated, fails: with the submitted text `<i id="typing">x</i>` and a
rejected `fetch`, the single `removeTyping()` of the `catch` block removes the element
inside the user bubble, so the transcript ends as the user entry with its bubble
emptied followed by the placeholder, not as the user entry only. -/
theorem injected_id_breaks_failure_transcript :
    Idle (fresh "<i id=\"typing\">x</i>")
      ∧ (run sampleParse (fresh "<i id=\"typing\">x</i>")
            (Event.submit :: (Outcome.transportFailure "Failed to fetch").events 0)).map
          (fun s => (shown s.ui.chatWindow, s.ui.errorHidden, s.ui.errorText))
        = some ([ ("", "message user", "🧍‍♂️"),
                  ("typing", "message assistant", "🕊️") ],
                false, "Failed to fetch") := by
  decide

/-- C9, amended. Transport or parse failure: from an idle widget with a non-blank
input, when `fetch` rejects, or resolves (with either status) and the body cannot be
parsed, the cycle completes with the error surface visible and showing the failure's
own message, and the failure path appends no entry (the entries of the transcript are
those before the submit plus one user entry).  When moreover the transcript before
the submit holds no element with id `typing` and the markup of the submitted text
creates none, the transcript ends as the prior transcript plus the user entry only. -/
theorem transport_or_parse_failure (parse : String → List Node) (s0 : Sys) (h0 : Idle s0)
    (h : jsTrim s0.ui.chatText ≠ "") (ok : Bool) (message : String) (o : Outcome)
    (ho : o = Outcome.transportFailure message ∨ o = Outcome.unparsableBody ok message) :
    ∃ s2 : Sys,
      run parse s0 (Event.submit :: o.events 0) = some s2
        ∧ s2.ui.errorHidden = false ∧ s2.ui.errorText = message
        ∧ (∀ c ∈ o.cmds, isAppend c = false)
        ∧ entryClasses s2.ui.chatWindow
            = entryClasses s0.ui.chatWindow ++ ["message user"]
        ∧ (hasIdIn "typing" s0.ui.chatWindow = false →
            hasIdIn "typing" (parse (markup (jsTrim s0.ui.chatText))) = false →
            s2.ui.chatWindow
              = s0.ui.chatWindow
                  ++ [(messageElement Role.user (jsTrim s0.ui.chatText)).toNode parse]) := by
  have hf := exec_cmds_fields parse o (exec parse (submitCmds s0.ui) s0.ui)
  have hrun := run_cycle parse s0 h0.2.2 h o
  have hcl := entryClasses_exec_cmds parse o (exec parse (submitCmds s0.ui) s0.ui)
  rw [entryClasses_exec_submit _ _ h] at hcl
  rcases ho with rfl | rfl
  · refine ⟨_, hrun, hf.2.1, hf.2.2, ?_, ?_, ?_⟩
    · intro c hc
      simp only [Outcome.cmds, fetchRejectedCmds, catchCmds, finallyCmds, List.cons_append,
        List.nil_append, List.mem_cons, List.mem_singleton, List.not_mem_nil, or_false]
        at hc
      rcases hc with hc | hc | hc | hc <;> subst hc <;> rfl
    · simpa using hcl
    · intro hT ht
      show (exec _ _ _).chatWindow = _
      rw [exec_cycle _ _ hT ht h]
  · refine ⟨_, hrun, hf.2.1, hf.2.2, ?_, ?_, ?_⟩
    · intro c hc
      simp only [Outcome.cmds, fetchResolvedCmds, bodyRejectedCmds, catchCmds, finallyCmds,
        List.cons_append, List.nil_append, List.mem_cons, List.mem_singleton,
        List.not_mem_nil, or_false] at hc
      rcases hc with hc | hc | hc | hc | hc <;> subst hc <;> rfl
    · simpa using hcl
    · intro hT ht
      show (exec _ _ _).chatWindow = _
      rw [exec_cycle _ _ hT ht h]

/-- Input `"hi"`, the call rejected with `"Failed to fetch"`. -/
theorem transport_or_parse_failure_witness :
    ∃ s2 : Sys,
      run sampleParse (fresh "hi")
          (Event.submit :: (Outcome.transportFailure "Failed to fetch").events 0) = some s2
        ∧ s2.ui.errorHidden = false ∧ s2.ui.errorText = "Failed to fetch"
        ∧ s2.ui.chatWindow = [(messageElement Role.user "hi").toNode sampleParse] := by
  obtain ⟨s2, a, b, c, _, _, d⟩ :=
    transport_or_parse_failure sampleParse (fresh "hi") (by decide) (by decide) true
      "Failed to fetch" (Outcome.transportFailure "Failed to fetch") (Or.inl rfl)
  exact ⟨s2, a, b, c, d (by decide) (by decide)⟩

/-! ## Further evaluations of the rendering -/

/-- The pattern `.` accepts an asterisk: the span opened by the first `**` of `***a**`
captures `*a`. -/
theorem markup_inner_star : markup "***a**" = "<strong>*a</strong>" := by decide

/-- A carriage return is a line terminator and is not rewritten, so a span that
straddles one is not emphasized. -/
theorem markup_carriage_return : markup "**a\rb**" = "**a\rb**" := by decide

end ChatWidget
